import Mathlib

/-!
Shallow embedding of
`src/sentry/static/sentry/app/views/settings/components/forms/formField/index.jsx`:
a settings form-field React component.  JavaScript runtime values are modelled
by `JSValue`; the event handlers of the component are modelled as functions that
return the list of calls they make into the form model and into the optional
caller-supplied callbacks; rendering is modelled as a pure projection of the
observed model state into a `RenderOutput` record.
-/

namespace Sentry.FormField

/-- A JavaScript value, as far as this component inspects one: the primitives
`undefined`, `null`, booleans, numbers and strings, and objects modelled as
association lists of string-keyed fields (only `target`, `value`, `key` and
`hash` are ever read by the source). -/
inductive JSValue : Type where
  | undefV : JSValue
  | nullv : JSValue
  | boolV : Bool → JSValue
  | numV : Int → JSValue
  | strV : String → JSValue
  | objV : List (String × JSValue) → JSValue

/-- JavaScript truthiness: `undefined`, `null`, `false`, `0` and the empty string are
falsy; every object is truthy. -/
def truthy : JSValue → Bool
  | .undefV => false
  | .nullv => false
  | .boolV b => b
  | .numV n => n != 0
  | .strV s => s ≠ ""
  | .objV _ => true

/-- Modelled from the spec: the `defined` helper imported from `app/utils`
(not part of the source slice).  Per the normalization contract of the spec, a
handler argument counts as supplied exactly when it is neither `undefined`
nor `null`. -/
def defined : JSValue → Bool
  | .undefV => false
  | .nullv => false
  | _ => true

/-- JavaScript `a || b`: returns `a` when `a` is truthy, otherwise `b`. -/
def jsOr (a b : JSValue) : JSValue := if truthy a then a else b

/-- JavaScript `a && b`: returns `a` when `a` is falsy, otherwise `b`. -/
def jsAnd (a b : JSValue) : JSValue := if truthy a then b else a

/-- JavaScript property access `v.k` restricted to receivers that are not
`null`/`undefined`: a missing field, or access on a non-object primitive,
yields `undefined`.  Used only in positions the source guards with `&&`
(so the receiver is truthy, hence never `null`/`undefined`). -/
def getFieldD : JSValue → String → JSValue
  | .objV fs, k => ((fs.find? (fun p => p.1 == k)).map (fun p => p.2)).getD .undefV
  | _, _ => .undefV

/-- JavaScript property access `v.k` in full: accessing a property of
`null` or `undefined` throws a TypeError, modelled as `none`. -/
def getField : JSValue → String → Option JSValue
  | .undefV, _ => none
  | .nullv, _ => none
  | v, k => some (getFieldD v k)

/-- JavaScript strict equality `v === s` against a string literal: true
exactly when `v` is that same string (an object is never `===` a string). -/
def strictEqStr (v : JSValue) (s : String) : Bool :=
  match v with
  | .strV t => t == s
  | _ => false

/-- JavaScript strict equality `v === null`. -/
def isNull : JSValue → Bool
  | .nullv => true
  | _ => false

/-- Function `getValueFromEvent(valueOrEvent, e)` from the source:
`event = e || valueOrEvent` and
`value = defined(e) ? valueOrEvent : event && event.target && event.target.value`,
returned as the pair `(value, event)`.  A missing argument is `undefined`. -/
def getValueFromEvent (valueOrEvent e : JSValue) : JSValue × JSValue :=
  let event := jsOr e valueOrEvent
  let value :=
    if defined e then valueOrEvent
    else jsAnd (jsAnd event (getFieldD event "target"))
               (getFieldD (getFieldD event "target") "value")
  (value, event)

/-- The slice of the external form model that the component reads.  The
notification methods of the model (`setValue`, `handleBlurField`, `handleSaveField`,
`handleCancelSaveField`) are not state transitions here; calls to them are
recorded as `Effect`s. -/
structure FormModel : Type where
  getValue : String → JSValue
  getFieldState : String → String → JSValue
  getError : String → JSValue

/-- One observable call made by a handler: either into the form model or into
an optional caller-supplied callback prop, with its arguments.  The behaviour of a handler is the ordered list of effects it performs. -/
inductive Effect : Type where
  | callOnChange : JSValue → JSValue → Effect
  | callOnBlur : JSValue → JSValue → Effect
  | callOnKeyDown : JSValue → JSValue → Effect
  | setValue : String → JSValue → Effect
  | handleBlurField : String → JSValue → Effect
  | handleSaveField : String → JSValue → Effect
  | handleCancelSaveField : String → Effect

/-- Handler `FormField.handleChange(...args)`: normalizes the arguments, calls the
optional `onChange` prop with `(value, event)` when provided, then always
calls `model.setValue(name, value)`.  `hasOnChange` records whether the
`onChange` prop is provided (truthy). -/
def handleChange (name : String) (hasOnChange : Bool)
    (valueOrEvent e : JSValue) : List Effect :=
  let ve := getValueFromEvent valueOrEvent e
  (if hasOnChange then [Effect.callOnChange ve.1 ve.2] else [])
    ++ [Effect.setValue name ve.1]

/-- Handler `FormField.handleBlur(...args)`: normalizes the arguments, calls the
optional `onBlur` prop with `(value, event)` when provided, then always calls
`model.handleBlurField(name, value)`. -/
def handleBlur (name : String) (hasOnBlur : Bool)
    (valueOrEvent e : JSValue) : List Effect :=
  let ve := getValueFromEvent valueOrEvent e
  (if hasOnBlur then [Effect.callOnBlur ve.1 ve.2] else [])
    ++ [Effect.handleBlurField name ve.1]

/-- Handler `FormField.handleKeyDown(...args)`: normalizes the arguments, reads
`event.key` (an unguarded property access, which throws — `none` — when the
normalized event is `null`/`undefined`), calls
`model.handleBlurField(name, value)` when the key is `"Enter"`, then calls
the optional `onKeyDown` prop with `(value, event)` when provided. -/
def handleKeyDown (name : String) (hasOnKeyDown : Bool)
    (valueOrEvent e : JSValue) : Option (List Effect) :=
  let ve := getValueFromEvent valueOrEvent e
  match getField ve.2 "key" with
  | none => none
  | some key =>
      some ((if strictEqStr key "Enter"
             then [Effect.handleBlurField name ve.1] else [])
        ++ (if hasOnKeyDown then [Effect.callOnKeyDown ve.1 ve.2] else []))

/-- Handler `FormField.handleSaveField(...args)`: ignores its arguments and calls
`model.handleSaveField(name, model.getValue(name))`. -/
def handleSaveField (model : FormModel) (name : String)
    (clickArgs : JSValue) : List Effect :=
  [Effect.handleSaveField name (model.getValue name)]

/-- Handler `FormField.handleCancelField(...args)`: ignores its arguments and calls
`model.handleCancelSaveField(name)`. -/
def handleCancelField (name : String) (clickArgs : JSValue) : List Effect :=
  [Effect.handleCancelSaveField name]

/-- One step of `FormField.handleInputMount(ref)`.  `input` is the value of
`this.input` before the call and `location` is `this.context.location`.
Returns `this.input` after the call and whether `ref.focus()` was called:
when `ref && !this.input`, the hash `location && location.hash` is read; a
falsy hash or a hash different from `"#" + name` returns early (leaving
`this.input` unchanged); otherwise the ref is focused.  In all non-early-return
paths `this.input = ref`. -/
def handleInputMount (name : String) (location : JSValue)
    (input ref : JSValue) : JSValue × Bool :=
  if truthy ref && !truthy input then
    let hash := jsAnd location (getFieldD location "hash")
    if !truthy hash then (input, false)
    else if !strictEqStr hash ("#" ++ name) then (input, false)
    else (ref, true)
  else (ref, false)

/-- One transition of the mount-callback state machine: applies
`handleInputMount` to the recorded input and counts a focus call. -/
def mountStep (name : String) (location : JSValue) (st : JSValue × Nat)
    (ref : JSValue) : JSValue × Nat :=
  let r := handleInputMount name location st.1 ref
  (r.1, st.2 + (if r.2 then 1 else 0))

/-- Runs a sequence of mount-callback invocations from the initial state
(`this.input` starts `undefined`), counting how many times `focus()` was
called. -/
def runMounts (name : String) (location : JSValue) (refs : List JSValue) :
    JSValue × Nat :=
  refs.foldl (mountStep name location) (JSValue.undefV, 0)

/-- Modelled from the spec: `FormState.SAVING` from
`app/components/forms/state` (not part of the source slice), the per-field
status key for a save in progress. -/
def FormStateSAVING : String := "Saving"

/-- Modelled from the spec: `FormState.READY` from
`app/components/forms/state` (not part of the source slice), the per-field
status key for a completed (saved) state. -/
def FormStateREADY : String := "Ready"

/-- What the first `Observer` slot of `ControlState.render` can show. -/
inductive StateIndicator : Type where
  | spinner : StateIndicator
  | savedCheckmark : StateIndicator

/-- The first `Observer` of `ControlState.render`: the saving spinner when
`model.getFieldState(name, FormState.SAVING)` is truthy, otherwise the saved
checkmark when `model.getFieldState(name, FormState.READY)` is truthy,
otherwise nothing. -/
def controlStateFirstSlot (model : FormModel) (name : String) :
    Option StateIndicator :=
  if truthy (model.getFieldState name FormStateSAVING) then
    some StateIndicator.spinner
  else if truthy (model.getFieldState name FormStateREADY) then
    some StateIndicator.savedCheckmark
  else none

/-- The second `Observer` of `ControlState.render`: the error icon is shown
exactly when `model.getError(name)` is truthy. -/
def controlStateErrorShown (model : FormModel) (name : String) : Bool :=
  truthy (model.getError name)

/-- Flag `saveOnBlurFieldOverride` from `FormField.render`:
`typeof saveOnBlur !== "undefined" && !saveOnBlur`.  An absent prop is
`undefined`. -/
def saveOnBlurFieldOverride (saveOnBlur : JSValue) : Bool :=
  (match saveOnBlur with | .undefV => false | _ => true) && !truthy saveOnBlur

/-- The props of `FormField` that drive the behaviour under study.  Purely
cosmetic pass-through props (`style`, `className`, `flexibleControlStateSize`,
mouse handlers) are omitted.  The handler props are recorded as whether they
are provided (truthy), since the component only ever tests them and calls
them. -/
structure FormFieldProps : Type where
  name : String
  saveOnBlur : JSValue := .undefV
  saveMessage : JSValue := .undefV
  saveMessageAlertType : JSValue := .undefV
  hideErrorMessage : JSValue := .boolV false
  hasOnChange : Bool := false
  hasOnBlur : Bool := false
  hasOnKeyDown : Bool := false

/-- One action button of the inline save/cancel bar: its (unlocalized) label
and the effects a click produces (`onClick` receives the click event, which
both handlers ignore). -/
structure ActionButton : Type where
  label : String
  onClick : JSValue → List Effect

/-- The inline `PanelAlert` save bar: the save message, the alert type, and
its action buttons in render order. -/
structure SaveBar : Type where
  message : JSValue
  alertType : JSValue
  actions : List ActionButton

/-- The observable output of `FormField.render` for a given model state:
the `ControlState` slots, the floating error tooltip (shown when an error is
truthy and `hideErrorMessage` is falsy), the `value` prop handed to the
wrapped input control (`value === null ? "" : value`), the return-button
indicator, and the optional inline save bar (rendered when
`saveOnBlurFieldOverride` holds and `model.getFieldState(name, "showSave")`
is truthy, with a Cancel and a Save button wired to `handleCancelField` and
`handleSaveField`). -/
structure RenderOutput : Type where
  controlStateMain : Option StateIndicator
  controlStateError : Bool
  errorTooltip : Option JSValue
  controlValue : JSValue
  showReturnButton : Bool
  saveBar : Option SaveBar

/-- Rendering: `FormField.render` as a projection of the props and the observed model
state. -/
def render (props : FormFieldProps) (model : FormModel) : RenderOutput :=
  let name := props.name
  let error := model.getError name
  let value := model.getValue name
  { controlStateMain := controlStateFirstSlot model name
  , controlStateError := controlStateErrorShown model name
  , errorTooltip :=
      if truthy error && !truthy props.hideErrorMessage then some error
      else none
  , controlValue := if isNull value then .strV "" else value
  , showReturnButton := truthy (model.getFieldState name "showReturnButton")
  , saveBar :=
      if saveOnBlurFieldOverride props.saveOnBlur
          && truthy (model.getFieldState name "showSave") then
        some { message := props.saveMessage
             , alertType := props.saveMessageAlertType
             , actions :=
                 [ { label := "Cancel", onClick := handleCancelField name }
                 , { label := "Save", onClick := handleSaveField model name } ] }
      else none }

/-- Labels of the inline save-bar actions, in render order, when the bar is
rendered. -/
def saveBarLabels (r : RenderOutput) : Option (List String) :=
  r.saveBar.map (fun b => b.actions.map ActionButton.label)

/-- Effects produced by clicking each inline save-bar action with a given
click-event argument, in render order, when the bar is rendered. -/
def saveBarClicks (r : RenderOutput) (clickArg : JSValue) :
    Option (List (List Effect)) :=
  r.saveBar.map (fun b => b.actions.map (fun btn => btn.onClick clickArg))

/-- A DOM-style change event whose target holds the string value `bar`. -/
def sampleEvent : JSValue :=
  JSValue.objV [("target", JSValue.objV [("value", JSValue.strV "bar")])]

/-- A DOM-style keydown event for the Enter key, with a target value. -/
def enterEvent : JSValue :=
  JSValue.objV
    [("key", JSValue.strV "Enter"),
     ("target", JSValue.objV [("value", JSValue.strV "bar")])]

/-- A form model that reports nothing: no values, no field state, no error. -/
def trivialModel : FormModel :=
  ⟨fun _ => JSValue.undefV, fun _ _ => JSValue.undefV, fun _ => JSValue.undefV⟩

/-- A form model whose field state is truthy for every key (in particular
`showSave`) and whose current value is the string `cur`. -/
def showSaveModel : FormModel :=
  ⟨fun _ => JSValue.strV "cur", fun _ _ => JSValue.boolV true,
   fun _ => JSValue.undefV⟩

/-- A form model whose every field value is `null`. -/
def nullValueModel : FormModel :=
  ⟨fun _ => JSValue.nullv, fun _ _ => JSValue.undefV, fun _ => JSValue.undefV⟩

/-- A form model whose every field value is `undefined`. -/
def undefValueModel : FormModel :=
  ⟨fun _ => JSValue.undefV, fun _ _ => JSValue.undefV, fun _ => JSValue.undefV⟩

/-- Props for a field named `field` with every optional prop left at its
default (in particular `saveOnBlur` unset). -/
def sampleProps : FormFieldProps :=
  ⟨"field", JSValue.undefV, JSValue.undefV, JSValue.undefV, JSValue.boolV false,
   false, false, false⟩

/-- Props for a field named `field` with `saveOnBlur` explicitly `false`. -/
def manualSaveProps : FormFieldProps :=
  ⟨"field", JSValue.boolV false, JSValue.strV "msg", JSValue.strV "info",
   JSValue.boolV false, false, false, false⟩

/-- A location object whose fragment identifier is `#email`. -/
def locEmail : JSValue := JSValue.objV [("hash", JSValue.strV "#email")]

/-- A mount-callback sequence in which the underlying element mounts, is
replaced (callback with `null`), and mounts again. -/
def remountRefs : List JSValue :=
  [JSValue.objV [], JSValue.nullv, JSValue.objV []]

/-- Truthiness of a boolean value is the boolean itself. -/
theorem truthy_boolV (b : Bool) : truthy (JSValue.boolV b) = b := rfl

/-- Truthiness of `undefined` is false. -/
theorem truthy_undef : truthy JSValue.undefV = false := rfl

/-- When the observed hash is not exactly `"#" + name`, a single mount
callback never calls focus. -/
theorem handleInputMount_no_match (name : String) (location : JSValue)
    (h : strictEqStr (jsAnd location (getFieldD location "hash"))
      ("#" ++ name) = false)
    (input ref : JSValue) :
    (handleInputMount name location input ref).2 = false := by
  unfold handleInputMount
  split
  · simp [h]
  · rfl

/-- When the recorded input is truthy, a mount callback only re-records the
ref and never calls focus. -/
theorem handleInputMount_truthy (name : String) (location : JSValue)
    (input ref : JSValue) (h : truthy input = true) :
    handleInputMount name location input ref = (ref, false) := by
  unfold handleInputMount
  simp [h]

/-- A single mount-step either leaves the state unchanged (early return),
re-records the ref without focusing, or focuses a truthy ref and records it. -/
theorem mountStep_cases (name : String) (location : JSValue)
    (st : JSValue × Nat) (ref : JSValue) :
    mountStep name location st ref = (st.1, st.2) ∨
    mountStep name location st ref = (ref, st.2) ∨
    (mountStep name location st ref = (ref, st.2 + 1) ∧ truthy ref = true) := by
  by_cases hc : (truthy ref && !truthy st.1) = true
  · have htr : truthy ref = true := ((Bool.and_eq_true _ _).mp hc).1
    by_cases h1 : truthy (jsAnd location (getFieldD location "hash")) = true
    · by_cases h2 : strictEqStr (jsAnd location (getFieldD location "hash"))
          ("#" ++ name) = true
      · exact Or.inr (Or.inr
          ⟨by simp [mountStep, handleInputMount, hc, h1, h2], htr⟩)
      · replace h2 : strictEqStr (jsAnd location (getFieldD location "hash"))
            ("#" ++ name) = false := by simpa using h2
        exact Or.inl (by simp [mountStep, handleInputMount, hc, h1, h2])
    · replace h1 : truthy (jsAnd location (getFieldD location "hash")) = false :=
        by simpa using h1
      exact Or.inl (by simp [mountStep, handleInputMount, hc, h1])
  · replace hc : (truthy ref && !truthy st.1) = false := by simpa using hc
    exact Or.inr (Or.inl (by simp [mountStep, handleInputMount, hc]))

/-- Under a hash that never matches `"#" + name`, the mount-callback fold
never increments the focus count. -/
theorem foldl_mountStep_zero (name : String) (location : JSValue)
    (h : strictEqStr (jsAnd location (getFieldD location "hash"))
      ("#" ++ name) = false) :
    ∀ (refs : List JSValue) (st : JSValue × Nat),
      (refs.foldl (mountStep name location) st).2 = st.2 := by
  intro refs
  induction refs with
  | nil => intro st; rfl
  | cons r rs ih =>
      intro st
      rw [List.foldl_cons, ih (mountStep name location st r)]
      unfold mountStep
      simp [handleInputMount_no_match name location h st.1 r]

/-- Once the recorded input is truthy, a fold over truthy refs never
increments the focus count again. -/
theorem foldl_mountStep_truthy (name : String) (location : JSValue) :
    ∀ (refs : List JSValue) (st : JSValue × Nat),
      (∀ r ∈ refs, truthy r = true) → truthy st.1 = true →
      (refs.foldl (mountStep name location) st).2 = st.2 := by
  intro refs
  induction refs with
  | nil => intro st _ _; rfl
  | cons r rs ih =>
      intro st hall hst
      have hstep : mountStep name location st r = (r, st.2) := by
        unfold mountStep
        rw [handleInputMount_truthy name location st.1 r hst]
        simp
      rw [List.foldl_cons, hstep]
      exact ih (r, st.2) (fun x hx => hall x (List.mem_cons_of_mem _ hx))
        (hall r (List.mem_cons_self _ _))

/-- Over a sequence of truthy refs (no unmount resets), the mount-callback
fold increments the focus count at most once. -/
theorem foldl_mountStep_le (name : String) (location : JSValue) :
    ∀ (refs : List JSValue) (st : JSValue × Nat),
      (∀ r ∈ refs, truthy r = true) →
      (refs.foldl (mountStep name location) st).2 ≤ st.2 + 1 := by
  intro refs
  induction refs with
  | nil => intro st _; exact Nat.le_succ st.2
  | cons r rs ih =>
      intro st hall
      have hall' : ∀ x ∈ rs, truthy x = true :=
        fun x hx => hall x (List.mem_cons_of_mem _ hx)
      rcases mountStep_cases name location st r with h | h | ⟨h, htr⟩
      · rw [List.foldl_cons, h]
        exact ih (st.1, st.2) hall'
      · rw [List.foldl_cons, h]
        exact ih (r, st.2) hall'
      · rw [List.foldl_cons, h,
          foldl_mountStep_truthy name location rs (r, st.2 + 1) hall' htr]

/-- Claim C1, counterexample: an explicit value supplied as the sole argument
(no event argument at all) is NOT normalized to itself.  The source treats
the lone argument as the event, reads its `target` (undefined on a string),
and normalizes the value to `undefined`. -/
theorem C1_counterexample :
    (getValueFromEvent (JSValue.strV "foo") JSValue.undefV).1 = JSValue.undefV ∧
    (getValueFromEvent (JSValue.strV "foo") JSValue.undefV).1 ≠
      JSValue.strV "foo" :=
  ⟨rfl, fun h => JSValue.noConfusion h⟩

/-- Claim C1, amended: when an explicit value is supplied as the first
argument and the accompanying event argument is defined (neither `undefined`
nor `null`), the normalized value equals that explicit value verbatim.  When
no defined event accompanies it, the first argument is instead treated as the
event and the value is read from its target. -/
theorem C1_main (v e : JSValue) (h : defined e = true) :
    (getValueFromEvent v e).1 = v := by
  simp [getValueFromEvent, h]

/-- Claim C1, witness: a concrete explicit value accompanied by a defined
event is normalized to itself. -/
theorem C1_witness :
    defined (JSValue.objV []) = true ∧
    (getValueFromEvent (JSValue.strV "foo") (JSValue.objV [])).1 =
      JSValue.strV "foo" :=
  ⟨rfl, C1_main (JSValue.strV "foo") (JSValue.objV []) rfl⟩

/-- Claim C2: every invocation of `handleChange` ends with
`model.setValue(name, value)` for the normalized value — the model write
happens on every invocation — and when the `onChange` prop is provided it is
invoked first, with `(value, event)`. -/
theorem C2_main (name : String) (hasOnChange : Bool) (v e : JSValue) :
    (handleChange name hasOnChange v e).getLast? =
      some (Effect.setValue name (getValueFromEvent v e).1) ∧
    (hasOnChange = true →
      handleChange name hasOnChange v e =
        [Effect.callOnChange (getValueFromEvent v e).1 (getValueFromEvent v e).2,
         Effect.setValue name (getValueFromEvent v e).1]) ∧
    (hasOnChange = false →
      handleChange name hasOnChange v e =
        [Effect.setValue name (getValueFromEvent v e).1]) := by
  cases hasOnChange <;> simp [handleChange]

/-- Claim C2, witness: a concrete change invocation with an `onChange` prop
calls `onChange` first and then writes the normalized value to the model. -/
theorem C2_witness :
    handleChange "field" true sampleEvent JSValue.undefV =
      [Effect.callOnChange (JSValue.strV "bar") sampleEvent,
       Effect.setValue "field" (JSValue.strV "bar")] :=
  (C2_main "field" true sampleEvent JSValue.undefV).2.1 rfl

/-- Claim C3: every invocation of `handleBlur` ends with
`model.handleBlurField(name, value)` for the normalized value, after the
optional `onBlur` prop when provided; and with `saveOnBlur` unset or `true`,
the render output contains no inline save/cancel bar for any model state. -/
theorem C3_main (name : String) (hasOnBlur : Bool) (v e : JSValue)
    (props : FormFieldProps) (model : FormModel) :
    ((handleBlur name hasOnBlur v e).getLast? =
        some (Effect.handleBlurField name (getValueFromEvent v e).1) ∧
      (hasOnBlur = true →
        handleBlur name hasOnBlur v e =
          [Effect.callOnBlur (getValueFromEvent v e).1 (getValueFromEvent v e).2,
           Effect.handleBlurField name (getValueFromEvent v e).1]) ∧
      (hasOnBlur = false →
        handleBlur name hasOnBlur v e =
          [Effect.handleBlurField name (getValueFromEvent v e).1])) ∧
    (props.saveOnBlur = JSValue.undefV ∨ props.saveOnBlur = JSValue.boolV true →
      (render props model).saveBar = none) := by
  constructor
  · cases hasOnBlur <;> simp [handleBlur]
  · rintro (h | h) <;> simp [render, saveOnBlurFieldOverride, h, truthy]

/-- Claim C3, witness: a concrete blur invocation notifies the model with the
normalized value, and a field with `saveOnBlur` unset renders no save bar. -/
theorem C3_witness :
    handleBlur "field" false sampleEvent JSValue.undefV =
      [Effect.handleBlurField "field" (JSValue.strV "bar")] ∧
    (render sampleProps trivialModel).saveBar = none :=
  ⟨(C3_main "field" false sampleEvent JSValue.undefV sampleProps
      trivialModel).1.2.2 rfl,
   (C3_main "field" false sampleEvent JSValue.undefV sampleProps
      trivialModel).2 (Or.inl rfl)⟩

/-- Claim C4: with `saveOnBlur` explicitly `false` and the model reporting
`showSave` truthy, the inline bar renders with exactly the two actions Cancel
and Save in that order; clicking Save calls
`model.handleSaveField(name, model.getValue(name))` and clicking Cancel calls
`model.handleCancelSaveField(name)`, both ignoring any click-event
argument. -/
theorem C4_main (props : FormFieldProps) (model : FormModel)
    (h1 : props.saveOnBlur = JSValue.boolV false)
    (h2 : truthy (model.getFieldState props.name "showSave") = true) :
    saveBarLabels (render props model) = some ["Cancel", "Save"] ∧
    ∀ a, saveBarClicks (render props model) a =
      some [[Effect.handleCancelSaveField props.name],
            [Effect.handleSaveField props.name (model.getValue props.name)]] := by
  constructor
  · simp [saveBarLabels, render, saveOnBlurFieldOverride, h1, h2, truthy_boolV]
  · intro a
    simp [saveBarClicks, render, saveOnBlurFieldOverride, h1, h2, truthy_boolV,
      handleCancelField, handleSaveField]

/-- Claim C4, witness: a concrete manual-save field whose model reports
`showSave` renders the Cancel/Save bar with the stated click behaviour. -/
theorem C4_witness :
    saveBarLabels (render manualSaveProps showSaveModel) =
      some ["Cancel", "Save"] ∧
    saveBarClicks (render manualSaveProps showSaveModel) JSValue.undefV =
      some [[Effect.handleCancelSaveField "field"],
            [Effect.handleSaveField "field" (JSValue.strV "cur")]] :=
  ⟨(C4_main manualSaveProps showSaveModel rfl rfl).1,
   (C4_main manualSaveProps showSaveModel rfl rfl).2 JSValue.undefV⟩

/-- Claim C5, counterexample: an invocation of `handleKeyDown` with no
arguments and an `onKeyDown` prop provided produces no effects at all — the
unguarded read of `event.key` on the `undefined` normalized event throws, so
`onKeyDown` is not invoked, refuting the claim that it is invoked in every
case. -/
theorem C5_counterexample :
    handleKeyDown "field" true JSValue.undefV JSValue.undefV = none := rfl

/-- Claim C5, amended: for every invocation whose normalized event is neither
`undefined` nor `null` (so reading `event.key` does not throw),
`model.handleBlurField(name, value)` is called exactly when the key is
`Enter`, and the optional `onKeyDown(value, event)` is invoked afterwards
when provided. -/
theorem C5_main (name : String) (hasOnKeyDown : Bool) (v e : JSValue)
    (h1 : (getValueFromEvent v e).2 ≠ JSValue.undefV)
    (h2 : (getValueFromEvent v e).2 ≠ JSValue.nullv) :
    handleKeyDown name hasOnKeyDown v e =
      some ((if strictEqStr (getFieldD (getValueFromEvent v e).2 "key") "Enter"
             then [Effect.handleBlurField name (getValueFromEvent v e).1]
             else []) ++
            (if hasOnKeyDown
             then [Effect.callOnKeyDown (getValueFromEvent v e).1
                     (getValueFromEvent v e).2]
             else [])) := by
  unfold handleKeyDown
  cases hev : (getValueFromEvent v e).2 <;> simp_all [getField]

/-- Claim C5, witness: a concrete Enter keydown notifies the model with the
normalized value and then invokes the provided `onKeyDown`. -/
theorem C5_witness :
    handleKeyDown "field" true enterEvent JSValue.undefV =
      some [Effect.handleBlurField "field" (JSValue.strV "bar"),
            Effect.callOnKeyDown (JSValue.strV "bar") enterEvent] :=
  C5_main "field" true enterEvent JSValue.undefV
    (fun h => JSValue.noConfusion h) (fun h => JSValue.noConfusion h)

/-- Claim C6: the first `ControlState` slot shows the spinner exactly when
the model reports `SAVING` truthy, the saved checkmark exactly when `SAVING`
is falsy and `READY` truthy, and nothing when both are falsy — so the spinner
and checkmark never render simultaneously — while the error icon is an
independent observation shown exactly when `getError(name)` is truthy. -/
theorem C6_main (model : FormModel) (name : String) :
    (controlStateFirstSlot model name = some StateIndicator.spinner ↔
      truthy (model.getFieldState name FormStateSAVING) = true) ∧
    (controlStateFirstSlot model name = some StateIndicator.savedCheckmark ↔
      (truthy (model.getFieldState name FormStateSAVING) = false ∧
       truthy (model.getFieldState name FormStateREADY) = true)) ∧
    (controlStateFirstSlot model name = none ↔
      (truthy (model.getFieldState name FormStateSAVING) = false ∧
       truthy (model.getFieldState name FormStateREADY) = false)) ∧
    controlStateErrorShown model name = truthy (model.getError name) := by
  unfold controlStateFirstSlot controlStateErrorShown
  by_cases hs : truthy (model.getFieldState name FormStateSAVING) = true <;>
    by_cases hr : truthy (model.getFieldState name FormStateREADY) = true <;>
      simp_all

/-- Claim C7, counterexample: with the fragment `#email` and a field named
`email`, the mount-callback sequence mount / unmount / remount calls focus
twice, refuting "the input receives focus at most once". -/
theorem C7_counterexample :
    (runMounts "email" locEmail remountRefs).2 = 2 := rfl

/-- Claim C7, amended: if the observed fragment is not exactly `"#" + name`,
focus is never called across any mount-callback sequence; and over a
sequence of truthy refs (i.e. as long as the underlying element is never
replaced, since an unmount resets the recorded input and a later remount
focuses again), focus is called at most once. -/
theorem C7_main (name : String) (location : JSValue)
    (refs : List JSValue) :
    (strictEqStr (jsAnd location (getFieldD location "hash")) ("#" ++ name) =
        false →
      (runMounts name location refs).2 = 0) ∧
    ((∀ r ∈ refs, truthy r = true) → (runMounts name location refs).2 ≤ 1) := by
  constructor
  · intro h
    exact foldl_mountStep_zero name location h refs (JSValue.undefV, 0)
  · intro h
    exact foldl_mountStep_le name location refs (JSValue.undefV, 0) h

/-- Claim C7, witness: under the fragment `#email` a field named `username`
is never focused, and a field named `email` is focused at most once over a
remount-free sequence. -/
theorem C7_witness :
    (runMounts "username" locEmail remountRefs).2 = 0 ∧
    (runMounts "email" locEmail [JSValue.objV []]).2 ≤ 1 :=
  ⟨(C7_main "username" locEmail remountRefs).1 rfl,
   (C7_main "email" locEmail [JSValue.objV []]).2
     (by intro r hr; simp only [List.mem_singleton] at hr; subst hr; rfl)⟩

/-- Claim C8: an invocation with only an event argument (a truthy event with
a truthy target, no explicit value) normalizes the value to the target value
of the event, and the normalized event is the event itself. -/
theorem C8_main (ev : JSValue) (h1 : truthy ev = true)
    (h2 : truthy (getFieldD ev "target") = true) :
    (getValueFromEvent ev JSValue.undefV).1 =
      getFieldD (getFieldD ev "target") "value" ∧
    (getValueFromEvent ev JSValue.undefV).2 = ev := by
  simp [getValueFromEvent, defined, jsOr, jsAnd, truthy_undef, h1, h2]

/-- Claim C8, witness: a concrete change event is normalized to its target
value. -/
theorem C8_witness :
    (getValueFromEvent sampleEvent JSValue.undefV).1 = JSValue.strV "bar" ∧
    (getValueFromEvent sampleEvent JSValue.undefV).2 = sampleEvent :=
  ⟨((C8_main sampleEvent rfl rfl).1).trans rfl,
   (C8_main sampleEvent rfl rfl).2⟩

/-- Claim C9: whenever the model holds `null` for the field, the value prop
handed to the wrapped input control is the empty string, never `null`. -/
theorem C9_main (props : FormFieldProps) (model : FormModel)
    (h : model.getValue props.name = JSValue.nullv) :
    (render props model).controlValue = JSValue.strV "" := by
  simp [render, isNull, h]

/-- Claim C9, witness: a concrete model holding `null` renders the control
value as the empty string. -/
theorem C9_witness :
    nullValueModel.getValue "field" = JSValue.nullv ∧
    (render sampleProps nullValueModel).controlValue = JSValue.strV "" :=
  ⟨rfl, C9_main sampleProps nullValueModel rfl⟩

/-- Claim C10: only the exact value `null` is coerced; every other model
value — in particular `undefined` — reaches the wrapped control unchanged. -/
theorem C10_main (props : FormFieldProps) (model : FormModel)
    (h : model.getValue props.name ≠ JSValue.nullv) :
    (render props model).controlValue = model.getValue props.name := by
  have hnull : isNull (model.getValue props.name) = false := by
    cases hv : model.getValue props.name <;> simp_all [isNull]
  simp [render, hnull]

/-- Claim C10, witness: a concrete model holding `undefined` passes
`undefined` through to the control, not the empty string. -/
theorem C10_witness :
    undefValueModel.getValue "field" ≠ JSValue.nullv ∧
    (render sampleProps undefValueModel).controlValue = JSValue.undefV :=
  ⟨fun h => JSValue.noConfusion h,
   C10_main sampleProps undefValueModel (fun h => JSValue.noConfusion h)⟩

end Sentry.FormField
